import Mathlib

/-!
Verification of the channel reliability and identity-resolution layer:
deduplication cache, inbound debouncer, credential save queue, backoff
engine, mention detection and LID resolution.

Each TypeScript module is embedded shallowly: JS `Map`s become insertion
ordered association lists (`JsMap`), timestamps and millisecond values
become `Int`, JS number arithmetic in the backoff engine is modelled
exactly over `ℚ`, and host primitives (`JSON.parse`, `RegExp.test`) are
abstracted as function parameters.  Fallible operations return `Except`.
-/

/-! ## Association lists with JS `Map` semantics

A JS `Map` preserves insertion order; `set` on an existing key updates the
entry in place, `set` on a fresh key appends, `delete` removes the entry
keeping the order of the others.  `JsMap` mirrors this on a `List`.
-/

namespace JsMap

/-- `Map.get`: value of the first (and, with nodup keys, only) entry. -/
def get? (c : List (String × α)) (k : String) : Option α :=
  (c.find? (fun e => e.1 == k)).map (fun e => e.2)

/-- `Map.has`. -/
def hasKey (c : List (String × α)) (k : String) : Bool :=
  c.any (fun e => e.1 == k)

/-- `Map.set`: update in place when the key is present, append otherwise. -/
def set (c : List (String × α)) (k : String) (v : α) : List (String × α) :=
  if c.any (fun e => e.1 == k) then
    c.map (fun e => if e.1 == k then (k, v) else e)
  else
    c ++ [(k, v)]

/-- `Map.delete`. -/
def erase (c : List (String × α)) (k : String) : List (String × α) :=
  c.filter (fun e => !(e.1 == k))

/-- The key list of an association list. -/
def keys (c : List (String × α)) : List String :=
  c.map Prod.fst

/-- Well-formedness of a JS `Map` image: keys are pairwise distinct. -/
def NodupKeys (c : List (String × α)) : Prop :=
  (keys c).Nodup

end JsMap

/-! ## Deduplication cache (`src/utils/debouncer.ts`, `createDedupeCache`)

The cache is a `Map<string, number>` from key to last-seen timestamp.
`check` takes the key (`null`/`undefined`/`""` are all falsy in
`if (!key)`, hence `Option String` with the empty string singled out) and
the current time, and returns the duplicate flag together with the new
cache state.
-/

namespace Dedupe

/-- The `Map<string, number>` backing the cache. -/
abbrev Cache := List (String × Int)

/-- `prune`: drop entries older than `ttlMs`, then, if still over
`maxSize`, delete the oldest entries (stable sort by timestamp, as JS
`Array.prototype.sort` with comparator `a[1] - b[1]`) until at cap. -/
def prune (ttlMs : Int) (maxSize : Nat) (now : Int) (cache : Cache) : Cache :=
  let c1 := cache.filter (fun e => !(decide (now - e.2 > ttlMs)))
  if c1.length > maxSize then
    let sorted := c1.mergeSort (fun a b => a.2 ≤ b.2)
    let toDelete := sorted.take (c1.length - maxSize)
    c1.filter (fun e => !((toDelete.map Prod.fst).contains e.1))
  else
    c1

/-- `check`: falsy keys are never duplicates and leave the cache alone; a
key seen strictly within `ttlMs` is a duplicate and only has its timestamp
touched; otherwise the key is recorded at `now` and the cache is pruned. -/
def check (ttlMs : Int) (maxSize : Nat) (cache : Cache) (key : Option String)
    (now : Int) : Bool × Cache :=
  match key with
  | none => (false, cache)
  | some k =>
    if k = "" then (false, cache)
    else
      match JsMap.get? cache k with
      | some existing =>
        if now - existing < ttlMs then
          (true, JsMap.set cache k now)
        else
          (false, prune ttlMs maxSize now (JsMap.set cache k now))
      | none =>
        (false, prune ttlMs maxSize now (JsMap.set cache k now))

/-- `size`. -/
def size (cache : Cache) : Nat := cache.length

/-- Run a sequence of `check` calls (key, now) against a cache. -/
def runChecks (ttlMs : Int) (maxSize : Nat) (calls : List (Option String × Int))
    (cache : Cache) : Cache :=
  calls.foldl (fun c call => (check ttlMs maxSize c call.1 call.2).2) cache

end Dedupe

/-! ## Backoff engine (`src/utils/phone.test.ts`, `computeBackoff`)

`computeBackoff` is JS number arithmetic; it is modelled exactly over `ℚ`
with the `Math.random()` draw passed in as an explicit rational
`rand ∈ [0, 1)`.  `Math.round` rounds half toward positive infinity. -/

namespace Backoff

/-- `BackoffPolicy`; millisecond fields are integral, the growth factor and
the jitter fraction are rationals. -/
structure BackoffPolicy where
  initialMs : Int
  maxMs : Int
  factor : ℚ
  jitter : ℚ

/-- `Math.round`: round half toward positive infinity. -/
def jsRound (x : ℚ) : Int := ⌊x + 1 / 2⌋

/-- `computeBackoff(policy, attempt)` with the random draw explicit. -/
def computeBackoff (policy : BackoffPolicy) (attempt : Int) (rand : ℚ) : Int :=
  let exponent : Nat := (max (attempt - 1) 0).toNat
  let base : ℚ := (policy.initialMs : ℚ) * policy.factor ^ exponent
  let jitterAmount : ℚ := base * policy.jitter * rand
  min policy.maxMs (jsRound (base + jitterAmount))

end Backoff

/-! ## Inbound debouncer (`src/utils/debouncer.ts`, `createInboundDebouncer`)

The buffers are a `Map<string, DebounceBuffer>`; a buffer present in the
map has a pending flush timer (timer handles themselves carry no further
observable state, since every (re)schedule resets the single timer).
`onFlush` may fail (`Except E Unit`); `onError` invocations are modelled
as the list of reports `(error, items)` produced by a call.  The outcome
of `enqueue`'s returned promise is an `Except E Unit`: `error e` is a
rejection, which is how an exception propagates to the caller.
-/

namespace Debounce

/-- Configuration of `createInboundDebouncer` (the `onError` callback is
implicit in the report lists returned by the operations). -/
structure DebouncerOptions (T E : Type) where
  debounceMs : Int
  buildKey : T → Option String
  shouldDebounce : Option (T → Bool)
  onFlush : List T → Except E Unit

/-- The `Map<string, DebounceBuffer<T>>` of pending buffers. -/
abbrev Buffers (T : Type) := List (String × List T)

/-- JS truthiness of `buildKey`'s result: `null`/`undefined`/`""` are falsy. -/
def keyTruthy : Option String → Bool
  | none => false
  | some s => !(s == "")

/-- `flushBuffer`: remove the buffer from the map, deliver the items as one
batch, and report (never propagate) a handler failure. -/
def flushBuffer (opts : DebouncerOptions T E) (bufs : Buffers T) (key : String)
    (items : List T) : Buffers T × List (E × List T) :=
  let bufs1 := JsMap.erase bufs key
  if items.isEmpty then (bufs1, [])
  else
    match opts.onFlush items with
    | .ok _ => (bufs1, [])
    | .error e => (bufs1, [(e, items)])

/-- `flushKey`: flush the pending buffer for `key`, if any. -/
def flushKey (opts : DebouncerOptions T E) (bufs : Buffers T) (key : String) :
    Buffers T × List (E × List T) :=
  match JsMap.get? bufs key with
  | none => (bufs, [])
  | some items => flushBuffer opts bufs key items

/-- Expiry of the timer scheduled for `key` (`scheduleFlush`'s
`setTimeout` callback runs `flushBuffer` on the current buffer). -/
def fireTimer (opts : DebouncerOptions T E) (bufs : Buffers T) (key : String) :
    Buffers T × List (E × List T) :=
  flushKey opts bufs key

/-- `enqueue`: either buffer the item (resetting the window), or deliver it
immediately — after first flushing any pending buffer with the same key.
The `Except E Unit` component is the settled state of the promise
`enqueue` returns: the direct `await onFlush([item])` on the immediate
path is not guarded, so its failure rejects that promise. -/
def enqueue (opts : DebouncerOptions T E) (bufs : Buffers T) (item : T) :
    (Buffers T × List (E × List T)) × Except E Unit :=
  let key := opts.buildKey item
  let debounceMs : Int := max 0 opts.debounceMs
  let canDebounce : Bool := decide (debounceMs > 0) &&
    (match opts.shouldDebounce with
     | some p => p item
     | none => true)
  if !canDebounce || !keyTruthy key then
    match key with
    | some k =>
      if keyTruthy key && JsMap.hasKey bufs k then
        let flushed := flushKey opts bufs k
        match opts.onFlush [item] with
        | .ok _ => ((flushed.1, flushed.2), .ok ())
        | .error e => ((flushed.1, flushed.2), .error e)
      else
        match opts.onFlush [item] with
        | .ok _ => ((bufs, []), .ok ())
        | .error e => ((bufs, []), .error e)
    | none =>
      match opts.onFlush [item] with
      | .ok _ => ((bufs, []), .ok ())
      | .error e => ((bufs, []), .error e)
  else
    match key with
    | some k =>
      match JsMap.get? bufs k with
      | some items => ((JsMap.set bufs k (items ++ [item]), []), .ok ())
      | none => ((bufs ++ [(k, [item])], []), .ok ())
    | none => ((bufs, []), .ok ())

end Debounce

/-! ## Credential save queue (`src/utils/creds-queue.ts`)

The two files are modelled as optional contents (`none` = missing or
unreadable).  `JSON.parse` success is an abstract predicate
`parseOk : String → Bool` (a parameter, since JSON parsing is a host
primitive).  Per §6 of the design the save callback writes the main
credentials file: a save operation reads the state and either yields the
new main content or fails.  Warnings are collected in a list. -/

namespace Creds

/-- The credential file pair (contents, or `none` when absent). -/
structure FsState where
  main : Option String
  backup : Option String
deriving DecidableEq, Repr

/-- A queued save operation: produces the new main-file content, or throws. -/
abbrev SaveOp := FsState → Except String (Option String)

/-- `readCredsJsonRaw`: `null` when the file is missing, not a regular
file, or at most one byte; the raw text otherwise. -/
def readCredsJsonRaw (file : Option String) : Option String :=
  match file with
  | none => none
  | some s => if s.utf8ByteSize ≤ 1 then none else some s

/-- Warning emitted when the main file fails to parse. -/
def corruptWarning : String :=
  "Current credentials file is corrupted, preserving existing backup"

/-- Warning emitted when the save operation itself fails. -/
def saveFailWarning : String := "Failed to save credentials"

/-- Log entry of the queue's `.catch` handler. -/
def queueErrorWarning : String := "Credential save queue error"

/-- `safeSaveCreds`: best-effort backup (copy main over backup only when
the main file reads and parses), then run the save operation, logging and
re-throwing its failure.  Returns the new state, the warnings, and the
promise outcome. -/
def safeSaveCreds (parseOk : String → Bool) (fs : FsState) (saveCreds : SaveOp) :
    FsState × List String × Except String Unit :=
  let backed : FsState × List String :=
    match readCredsJsonRaw fs.main with
    | some raw =>
      if parseOk raw then ({ fs with backup := fs.main }, [])
      else (fs, [corruptWarning])
    | none => (fs, [])
  match saveCreds backed.1 with
  | .ok newMain => ({ backed.1 with main := newMain }, backed.2, .ok ())
  | .error e => (backed.1, backed.2 ++ [saveFailWarning], .error e)

/-- State of the promise chain `queue`: file state, accumulated warnings,
and whether the chain is currently resolved or rejected. -/
abbrev QState := FsState × List String × Except String Unit

/-- One `enqueue` call: `queue = queue.then(() => safeSaveCreds(...)).catch(warn)`.
`.then` only runs the operation on a resolved chain; `.catch` logs a
failure and restores the chain to resolved. -/
def enqueueOp (parseOk : String → Bool) (q : QState) (op : SaveOp) : QState :=
  match q.2.2 with
  | .error e => (q.1, q.2.1, .error e)
  | .ok _ =>
    let r := safeSaveCreds parseOk q.1 op
    match r.2.2 with
    | .ok _ => (r.1, q.2.1 ++ r.2.1, .ok ())
    | .error _ => (r.1, q.2.1 ++ r.2.1 ++ [queueErrorWarning], .ok ())

/-- Enqueue a list of operations on a fresh queue; `flush()` awaits the
final chain state, whose `Except` component is its settlement. -/
def runQueue (parseOk : String → Bool) (ops : List SaveOp) (fs : FsState) : QState :=
  ops.foldl (enqueueOp parseOk) (fs, [], .ok ())

end Creds

/-! ## Mention detection (`src/channels/whatsapp/inbound/mentions.ts`)

`RegExp` construction and testing is a host primitive; it is abstracted as
an oracle `regexTest : String → String → Option Bool` taking the pattern
and the text: `none` models a pattern whose compilation throws (the code
logs a warning and skips it), `some b` the result of a case-insensitive
`test`.  The device-suffix normalization `jid.replace(/:\d+(@|$)/, '$1')`
is embedded directly as a scan for the first match. -/

namespace Mentions

/-- `MentionConfig`; nullable strings become `Option String`. -/
structure MentionConfig where
  mentionPatterns : List String
  selfE164 : Option String
  selfJid : Option String
  selfLid : Option String

/-- Detection method of a successful mention check. -/
inductive Method where
  | jid
  | regex
  | e164
  | reply
deriving DecidableEq, Repr

/-- `MentionDetectionResult` (`method` is absent when no mention). -/
structure MentionDetectionResult where
  wasMentioned : Bool
  implicitMention : Bool
  method : Option Method
deriving DecidableEq, Repr

/-- First-match replacement of `/:\d+(@|$)/` by `'$1'`: at the first `:`
followed by a maximal nonempty digit run that ends the string or is
followed by `@`, drop the `:` and the digits and keep the rest verbatim
(the regex engine cannot match with a shorter digit run there, since the
next character would still be a digit). -/
def stripDevice : List Char → List Char
  | [] => []
  | c :: rest =>
    if c = ':' then
      let ds := rest.takeWhile (fun d => d.isDigit)
      let rest1 := rest.drop ds.length
      if !ds.isEmpty && (rest1.isEmpty || rest1.head? = some '@') then rest1
      else c :: stripDevice rest
    else c :: stripDevice rest

/-- `normalizeJid`: falsy input (null/undefined/empty) gives `""`,
otherwise the device suffix is stripped. -/
def normalizeJid (jid : Option String) : String :=
  match jid with
  | none => ""
  | some s => if s = "" then "" else (stripDevice s.data).asString

/-- The characters JS `String.prototype.trim` removes (whitespace and line
terminators). -/
def jsTrimmable (c : Char) : Bool :=
  c = ' ' || c = '\t' || c = '\n' || c = '\r' || c = '\x0b' || c = '\x0c' ||
  c = ' ' || c = '﻿' || c = ' ' || c = ' '

/-- Zero-width characters removed by `normalizeMentionText`
(`U+200B`–`U+200D` and `U+FEFF`). -/
def zeroWidth (c : Char) : Bool :=
  ('​' ≤ c && c ≤ '‍') || c = '﻿'

/-- `normalizeMentionText`: `trim()` then strip zero-width characters. -/
def normalizeMentionText (text : String) : String :=
  let trimmed := (text.data.dropWhile jsTrimmable).reverse.dropWhile jsTrimmable
  ((trimmed.reverse).filter (fun c => !zeroWidth c)).asString

/-- JS truthiness of an optional string. -/
def strTruthy : Option String → Bool
  | none => false
  | some s => !(s == "")

/-- METHOD 2: first pattern that compiles and matches wins; a pattern that
fails to compile is skipped with a warning. -/
def regexHit (regexTest : String → String → Option Bool)
    (patterns : List String) (text : String) : Bool :=
  patterns.any (fun p => (regexTest p text).getD false)

/-- The digits of a string (`replace(/\D/g, '')` / `replace(/[^\d]/g, '')`). -/
def digitsOf (s : String) : List Char :=
  s.data.filter (fun c => c.isDigit)

/-- METHODS 2–4 of `detectMention`: the fall-through path taken when no
native mention list is present (or it is empty). -/
def detectMentionFallback (regexTest : String → String → Option Bool)
    (body : String) (replyToSenderJid replyToSenderE164 : Option String)
    (config : MentionConfig) : MentionDetectionResult :=
  let bodyClean := normalizeMentionText body
  if regexHit regexTest config.mentionPatterns bodyClean then
    ⟨true, false, some .regex⟩
  else
    let e164Hit : Bool :=
      match config.selfE164 with
      | some s =>
        if s == "" then false
        else decide (digitsOf s <:+: digitsOf bodyClean)
      | none => false
    if e164Hit then
      ⟨true, false, some .e164⟩
    else
      let selfJidNorm := normalizeJid config.selfJid
      let selfLidNorm := normalizeJid config.selfLid
      let replyJidNorm := normalizeJid replyToSenderJid
      let isReplyToBot : Bool :=
        (!(replyJidNorm == "") &&
          (replyJidNorm == selfJidNorm || replyJidNorm == selfLidNorm)) ||
        (strTruthy config.selfE164 && strTruthy replyToSenderE164 &&
          config.selfE164 == replyToSenderE164)
      if isReplyToBot then ⟨true, true, some .reply⟩
      else ⟨false, false, none⟩

/-- `detectMention`: a present non-empty native mention list decides the
outcome alone (METHOD 1); otherwise the fall-through checks run. -/
def detectMention (regexTest : String → String → Option Bool)
    (body : String) (mentionedJids : Option (List String))
    (replyToSenderJid replyToSenderE164 : Option String)
    (config : MentionConfig) : MentionDetectionResult :=
  match mentionedJids with
  | some js =>
    if js.length > 0 then
      let selfJidNorm := normalizeJid config.selfJid
      let selfLidNorm := normalizeJid config.selfLid
      let mentioned := js.any (fun jid =>
        let jidNorm := normalizeJid (some jid)
        jidNorm == selfJidNorm || jidNorm == selfLidNorm)
      if mentioned then ⟨true, false, some .jid⟩
      else ⟨false, false, none⟩
    else detectMentionFallback regexTest body replyToSenderJid replyToSenderE164 config
  | none => detectMentionFallback regexTest body replyToSenderJid replyToSenderE164 config

end Mentions

/-! ## Outbound LID resolution (`src/channels/whatsapp/outbound.ts`)

`resolveSendJid` throws on an unresolvable LID; the throw is modelled as
`Except.error` carrying the error message.  The Baileys
`signalRepository.lidMapping` (which may be absent) is an optional map
passed alongside the adapter-owned `LidMapper`. -/

namespace Outbound

/-- `isLid`: the JID contains `"@lid"`. -/
def isLid (remoteJid : String) : Bool :=
  decide ("@lid".data <:+: remoteJid.data)

/-- `LidMapper` (the `messageStore` field plays no role in resolution). -/
structure LidMapper where
  selfChatLid : String
  myNumber : String
  lidToJid : List (String × String)

/-- Error thrown when no mapping exists. -/
def unresolvableError : String := "Cannot send to unknown LID - no mapping found"

/-- Step (3): the manually observed mapping, else fail. -/
def resolveManual (chatId : String) (m : LidMapper) : Except String String :=
  match JsMap.get? m.lidToJid chatId with
  | some v => if v == "" then .error unresolvableError else .ok v
  | none => .error unresolvableError

/-- `resolveSendJid`: pass through non-LIDs; self-chat LID (with a
configured number) becomes the bot's own JID; then the Baileys mapping,
then the manual mapping (an empty-string mapping value is falsy and
skipped); otherwise fail. -/
def resolveSendJid (chatId : String)
    (signalLidMapping : Option (List (String × String))) (m : LidMapper) :
    Except String String :=
  if !isLid chatId then .ok chatId
  else if chatId == m.selfChatLid && !(m.myNumber == "") then
    .ok (m.myNumber ++ "@s.whatsapp.net")
  else
    match signalLidMapping.bind (fun t => JsMap.get? t chatId) with
    | some v => if v == "" then resolveManual chatId m else .ok v
    | none => resolveManual chatId m

end Outbound

/-! ## Claims -/

/-- C10: supplying `mentionedJids` as an empty array behaves exactly as
supplying no native mention list at all — the empty list does not deny the
mention, and the regex, phone-digit, and reply-to-bot checks still run. -/
theorem c10_empty_mention_list_falls_through
    (regexTest : String → String → Option Bool) (body : String)
    (replyToSenderJid replyToSenderE164 : Option String)
    (config : Mentions.MentionConfig) :
    Mentions.detectMention regexTest body (some []) replyToSenderJid
        replyToSenderE164 config =
      Mentions.detectMention regexTest body none replyToSenderJid
        replyToSenderE164 config := by
  rfl

/-- C9: a supplied non-empty native mention list that contains no JID
normalizing to the bot's normalized real JID or LID yields "not
mentioned", whatever the body, the patterns, the regex oracle, and the
reply context are — the weaker checks are not consulted. -/
theorem c9_foreign_mention_list_denies
    (regexTest : String → String → Option Bool) (body : String)
    (js : List String) (replyToSenderJid replyToSenderE164 : Option String)
    (config : Mentions.MentionConfig)
    (hne : js ≠ [])
    (hmiss : ∀ jid ∈ js,
      Mentions.normalizeJid (some jid) ≠ Mentions.normalizeJid config.selfJid ∧
      Mentions.normalizeJid (some jid) ≠ Mentions.normalizeJid config.selfLid) :
    Mentions.detectMention regexTest body (some js) replyToSenderJid
        replyToSenderE164 config = ⟨false, false, none⟩ := by
  have hlen : js.length > 0 := List.length_pos.mpr hne
  have hany : (js.any (fun jid =>
      Mentions.normalizeJid (some jid) == Mentions.normalizeJid config.selfJid ||
      Mentions.normalizeJid (some jid) == Mentions.normalizeJid config.selfLid)) = false := by
    simp only [List.any_eq_false, Bool.or_eq_true, beq_iff_eq, not_or]
    exact fun jid hj => (hmiss jid hj).imp id id
  simp only [Mentions.detectMention, hlen, if_pos, hany]
  simp

/-- C9 witness: a third-party mention list blocks detection even though
the regex oracle would match everything. -/
theorem c9_witness :
    (["9876543210@s.whatsapp.net"] ≠ ([] : List String)) ∧
    Mentions.detectMention (fun _ _ => some true) "hey bot, help"
        (some ["9876543210@s.whatsapp.net"]) none none
        ⟨["@?bot"], some "+15551234567", some "15551234567@s.whatsapp.net",
          some "214542927831175@lid"⟩ = ⟨false, false, none⟩ :=
  ⟨by decide,
    c9_foreign_mention_list_denies (fun _ _ => some true) "hey bot, help"
      ["9876543210@s.whatsapp.net"] none none
      ⟨["@?bot"], some "+15551234567", some "15551234567@s.whatsapp.net",
        some "214542927831175@lid"⟩ (by decide) (by decide)⟩

/-- C1 counterexample: the chat id equals the configured self-chat LID,
but the bot's phone number is empty, so `resolveSendJid` raises the
unresolvable error instead of returning the bot's own address — refuting
the claim's self-chat conjunct as universally stated. -/
theorem c1_counterexample :
    Outbound.resolveSendJid "5@lid" none
      { selfChatLid := "5@lid", myNumber := "", lidToJid := [] } =
      Except.error Outbound.unresolvableError := by
  rfl

/-- C1 (amended): provided the bot's phone number is non-empty, the
self-chat LID resolves to the bot's own address; a LID that is not the
self-chat LID and has no entry in either mapping raises the unresolvable
error; a non-LID chat id is returned unchanged with no lookup. -/
theorem c1_resolveSendJid_amended (chatId : String)
    (signalLidMapping : Option (List (String × String))) (m : Outbound.LidMapper) :
    (Outbound.isLid chatId = true → chatId = m.selfChatLid → m.myNumber ≠ "" →
      Outbound.resolveSendJid chatId signalLidMapping m =
        Except.ok (m.myNumber ++ "@s.whatsapp.net")) ∧
    (Outbound.isLid chatId = true → chatId ≠ m.selfChatLid →
      signalLidMapping.bind (fun t => JsMap.get? t chatId) = none →
      JsMap.get? m.lidToJid chatId = none →
      Outbound.resolveSendJid chatId signalLidMapping m =
        Except.error Outbound.unresolvableError) ∧
    (Outbound.isLid chatId = false →
      Outbound.resolveSendJid chatId signalLidMapping m = Except.ok chatId) := by
  refine ⟨fun hl hself hnum => ?_, fun hl hnotself hsig hman => ?_, fun hl => ?_⟩
  · subst hself
    simp [Outbound.resolveSendJid, hl, hnum]
  · simp [Outbound.resolveSendJid, hl, hnotself, hsig, Outbound.resolveManual, hman]
  · simp [Outbound.resolveSendJid, hl]

/-- C1 witness: the three branches at concrete inputs. -/
theorem c1_witness :
    Outbound.resolveSendJid "5@lid" none
        { selfChatLid := "5@lid", myNumber := "777", lidToJid := [] } =
      Except.ok "777@s.whatsapp.net" ∧
    Outbound.resolveSendJid "6@lid" (some [])
        { selfChatLid := "5@lid", myNumber := "777", lidToJid := [] } =
      Except.error Outbound.unresolvableError ∧
    Outbound.resolveSendJid "x@s.whatsapp.net" none
        { selfChatLid := "5@lid", myNumber := "777", lidToJid := [] } =
      Except.ok "x@s.whatsapp.net" :=
  ⟨(c1_resolveSendJid_amended "5@lid" none
      { selfChatLid := "5@lid", myNumber := "777", lidToJid := [] }).1
      (by decide) rfl (by decide),
   (c1_resolveSendJid_amended "6@lid" (some [])
      { selfChatLid := "5@lid", myNumber := "777", lidToJid := [] }).2.1
      (by decide) (by decide) rfl rfl,
   (c1_resolveSendJid_amended "x@s.whatsapp.net" none
      { selfChatLid := "5@lid", myNumber := "777", lidToJid := [] }).2.2
      (by decide)⟩


/-- C2 counterexample: a one-byte main file (`"x"`, which does not parse
as JSON) yields no warning at all — `readCredsJsonRaw` filters it out
before the parse check — refuting the claim's "only a warning is logged"
conjunct; the backup is still left untouched. -/
theorem c2_counterexample :
    (Creds.safeSaveCreds (fun _ => false) ⟨some "x", some "B"⟩
        (fun _ => Except.ok (some "N"))).2.1 = [] ∧
    (Creds.safeSaveCreds (fun _ => false) ⟨some "x", some "B"⟩
        (fun _ => Except.ok (some "N"))).1.backup = some "B" ∧
    (fun _ => false : String → Bool) "x" = false := by
  exact ⟨rfl, rfl, rfl⟩

/-- C2 (amended): the backup is overwritten only when the main file reads
and parses (and then it becomes a copy of the main file); when the main
file reads but does not parse, the backup is untouched and the corruption
warning is logged; when the main file is missing or at most one byte, the
backup is likewise untouched but no corruption warning is logged. -/
theorem c2_backup_amended (parseOk : String → Bool) (fs : Creds.FsState)
    (op : Creds.SaveOp) (s : String) :
    ((Creds.safeSaveCreds parseOk fs op).1.backup ≠ fs.backup →
      ∃ raw, Creds.readCredsJsonRaw fs.main = some raw ∧ parseOk raw = true ∧
        (Creds.safeSaveCreds parseOk fs op).1.backup = fs.main) ∧
    (Creds.readCredsJsonRaw fs.main = some s → parseOk s = false →
      (Creds.safeSaveCreds parseOk fs op).1.backup = fs.backup ∧
      Creds.corruptWarning ∈ (Creds.safeSaveCreds parseOk fs op).2.1) ∧
    (Creds.readCredsJsonRaw fs.main = none →
      (Creds.safeSaveCreds parseOk fs op).1.backup = fs.backup ∧
      Creds.corruptWarning ∉ (Creds.safeSaveCreds parseOk fs op).2.1) := by
  unfold Creds.safeSaveCreds
  refine ⟨?_, ?_, ?_⟩
  · intro hch
    cases hraw : Creds.readCredsJsonRaw fs.main with
    | none =>
      exfalso; apply hch
      simp only [hraw]
      cases op fs <;> rfl
    | some raw =>
      by_cases hp : parseOk raw = true
      · refine ⟨raw, rfl, hp, ?_⟩
        simp only [hraw, hp, if_pos]
        cases op { fs with backup := fs.main } <;> rfl
      · exfalso; apply hch
        simp only [hraw, eq_false_of_ne_true hp, if_neg, Bool.false_eq_true,
          not_false_eq_true]
        cases op fs <;> rfl
  · intro hraw hp
    simp only [hraw, hp, Bool.false_eq_true, if_neg, not_false_eq_true]
    cases hop : op fs with
    | ok v => exact ⟨rfl, by simp⟩
    | error e => exact ⟨rfl, by simp⟩
  · intro hraw
    simp only [hraw]
    cases hop : op fs with
    | ok v => exact ⟨rfl, by simp⟩
    | error e =>
      refine ⟨rfl, ?_⟩
      simp only [List.nil_append, List.mem_singleton]
      decide

/-- C2 witness: a readable but unparsable main file leaves the backup
alone and logs the corruption warning. -/
theorem c2_witness :
    (Creds.safeSaveCreds (fun _ => false) ⟨some "xy", some "B"⟩
        (fun _ => Except.ok (some "N"))).1.backup = some "B" ∧
    Creds.corruptWarning ∈ (Creds.safeSaveCreds (fun _ => false)
        ⟨some "xy", some "B"⟩ (fun _ => Except.ok (some "N"))).2.1 :=
  (c2_backup_amended (fun _ => false) ⟨some "xy", some "B"⟩
    (fun _ => Except.ok (some "N")) "xy").2.1 rfl rfl

/-- C4 counterexample: with a single failing save enqueued, `flush()`
resolves (`Except.ok`), refuting the claim that the flush promise rejects
with the save error — the queue's `.catch` swallows it after logging. -/
theorem c4_counterexample :
    (Creds.runQueue (fun _ => true) [fun _ => Except.error "boom"]
        ⟨none, none⟩).2.2 = Except.ok () := by
  rfl

/-- A resolved chain stays resolved: `enqueueOp`'s `.catch` always hands a
resolved promise to the next link. -/
theorem Creds.foldl_enqueueOp_ok (parseOk : String → Bool)
    (ops : List Creds.SaveOp) :
    ∀ q : Creds.QState, q.2.2 = Except.ok () →
      (ops.foldl (Creds.enqueueOp parseOk) q).2.2 = Except.ok () := by
  induction ops with
  | nil => exact fun q hq => hq
  | cons op rest ih =>
    intro q hq
    refine ih _ ?_
    obtain ⟨fs, logs, ex⟩ := q
    simp only at hq
    subst hq
    simp only [Creds.enqueueOp]
    cases (Creds.safeSaveCreds parseOk fs op).2.2 <;> rfl

/-- Folding from a state with accumulated logs `L` only prefixes `L` to
the logs produced from the empty log state. -/
theorem Creds.foldl_enqueueOp_log_acc (parseOk : String → Bool)
    (ops : List Creds.SaveOp) :
    ∀ (fs : Creds.FsState) (L : List String),
      ops.foldl (Creds.enqueueOp parseOk) (fs, L, Except.ok ()) =
        ((Creds.runQueue parseOk ops fs).1,
          L ++ (Creds.runQueue parseOk ops fs).2.1,
          (Creds.runQueue parseOk ops fs).2.2) := by
  induction ops with
  | nil => intro fs L; simp [Creds.runQueue]
  | cons op rest ih =>
    intro fs L
    have hstep : ∀ M : List String,
        Creds.enqueueOp parseOk (fs, M, Except.ok ()) op =
          ((Creds.safeSaveCreds parseOk fs op).1,
            M ++ (Creds.safeSaveCreds parseOk fs op).2.1 ++
              (match (Creds.safeSaveCreds parseOk fs op).2.2 with
               | Except.ok _ => []
               | Except.error _ => [Creds.queueErrorWarning]),
            Except.ok ()) := by
      intro M
      simp only [Creds.enqueueOp]
      cases h : (Creds.safeSaveCreds parseOk fs op).2.2 <;> simp [h]
    simp only [List.foldl_cons, Creds.runQueue]
    rw [hstep L, hstep []]
    simp only [List.nil_append]
    rw [ih (Creds.safeSaveCreds parseOk fs op).1
        (L ++ (Creds.safeSaveCreds parseOk fs op).2.1 ++
          (match (Creds.safeSaveCreds parseOk fs op).2.2 with
           | Except.ok _ => []
           | Except.error _ => [Creds.queueErrorWarning])),
      ih (Creds.safeSaveCreds parseOk fs op).1
        ((Creds.safeSaveCreds parseOk fs op).2.1 ++
          (match (Creds.safeSaveCreds parseOk fs op).2.2 with
           | Except.ok _ => []
           | Except.error _ => [Creds.queueErrorWarning]))]
    simp [List.append_assoc]

/-- C4 (amended): `flush()` always resolves — a failing save operation is
logged (the queue's catch appends its warning) and swallowed rather than
re-raised — and the operations enqueued after a failing one still run:
the final file state is the one obtained by running them from the state
the failing operation left behind. -/
theorem c4_queue_amended (parseOk : String → Bool) (ops : List Creds.SaveOp)
    (fs : Creds.FsState) (op : Creds.SaveOp) (e : String) :
    ((Creds.runQueue parseOk ops fs).2.2 = Except.ok ()) ∧
    ((Creds.safeSaveCreds parseOk fs op).2.2 = Except.error e →
      Creds.queueErrorWarning ∈ (Creds.runQueue parseOk (op :: ops) fs).2.1 ∧
      (Creds.runQueue parseOk (op :: ops) fs).1 =
        (Creds.runQueue parseOk ops (Creds.safeSaveCreds parseOk fs op).1).1) := by
  constructor
  · exact Creds.foldl_enqueueOp_ok parseOk ops (fs, [], Except.ok ()) rfl
  · intro hfail
    have hstep : Creds.enqueueOp parseOk (fs, [], Except.ok ()) op =
        ((Creds.safeSaveCreds parseOk fs op).1,
          (Creds.safeSaveCreds parseOk fs op).2.1 ++ [Creds.queueErrorWarning],
          Except.ok ()) := by
      simp [Creds.enqueueOp, hfail]
    have hrun : Creds.runQueue parseOk (op :: ops) fs =
        ops.foldl (Creds.enqueueOp parseOk)
          ((Creds.safeSaveCreds parseOk fs op).1,
            (Creds.safeSaveCreds parseOk fs op).2.1 ++ [Creds.queueErrorWarning],
            Except.ok ()) := by
      simp only [Creds.runQueue, List.foldl_cons, hstep]
    rw [hrun, Creds.foldl_enqueueOp_log_acc]
    constructor
    · simp
    · rfl

/-- C4 witness: a failing save followed by a succeeding one — flush
resolves, the failure is logged, and the second save still runs. -/
theorem c4_witness :
    (Creds.runQueue (fun _ => true)
        [fun _ => Except.ok (some "Z")] ⟨none, none⟩).2.2 = Except.ok () ∧
    (Creds.queueErrorWarning ∈ (Creds.runQueue (fun _ => true)
        ((fun _ => Except.error "boom") ::
          [fun _ => Except.ok (some "Z")]) ⟨none, none⟩).2.1 ∧
      (Creds.runQueue (fun _ => true)
          ((fun _ => Except.error "boom") ::
            [fun _ => Except.ok (some "Z")]) ⟨none, none⟩).1 =
        (Creds.runQueue (fun _ => true) [fun _ => Except.ok (some "Z")]
          (Creds.safeSaveCreds (fun _ => true) ⟨none, none⟩
            (fun _ => Except.error "boom")).1).1) :=
  ⟨(c4_queue_amended (fun _ => true) [fun _ => Except.ok (some "Z")]
      ⟨none, none⟩ (fun _ => Except.error "boom") "boom").1,
   (c4_queue_amended (fun _ => true) [fun _ => Except.ok (some "Z")]
      ⟨none, none⟩ (fun _ => Except.error "boom") "boom").2 rfl⟩

/-- C5 counterexample: with the window set to 0 the item is delivered
immediately through an unguarded `await onFlush([item])`, so the handler
failure rejects the promise `enqueue` returned — refuting the claim that a
handler failure never propagates to the enqueuer. -/
theorem c5_counterexample :
    (Debounce.enqueue
        ({ debounceMs := 0, buildKey := fun _ => some "k",
           shouldDebounce := none,
           onFlush := fun _ => Except.error "boom" } :
          Debounce.DebouncerOptions Nat String) [] 1).2 =
      Except.error "boom" := by
  rfl

/-- C5 (amended): a handler failure while flushing a buffered batch (timer
expiry, `flushKey`/`flushAll`, or the pre-flush of an existing buffer on
the immediate path) is reported to `onError` with the batched items and
does not propagate; and on the buffered (debounced) path `enqueue` always
resolves.  Only the direct immediate delivery propagates the failure. -/
theorem c5_debouncer_amended {T E : Type} (opts : Debounce.DebouncerOptions T E)
    (bufs : Debounce.Buffers T) (k : String) (items : List T) (e : E) (item : T) :
    (JsMap.get? bufs k = some items → items ≠ [] →
      opts.onFlush items = Except.error e →
      Debounce.fireTimer opts bufs k = (JsMap.erase bufs k, [(e, items)])) ∧
    (0 < opts.debounceMs →
      (∀ p, opts.shouldDebounce = some p → p item = true) →
      Debounce.keyTruthy (opts.buildKey item) = true →
      (Debounce.enqueue opts bufs item).2 = Except.ok ()) := by
  constructor
  · intro hget hne herr
    simp only [Debounce.fireTimer, Debounce.flushKey, hget, Debounce.flushBuffer,
      List.isEmpty_eq_true, herr]
    simp [hne]
  · intro hdm hp hkey
    have hmax : (0 : Int) < max 0 opts.debounceMs := lt_max_of_lt_right hdm
    have hcan : (decide (max 0 opts.debounceMs > 0) &&
        (match opts.shouldDebounce with
         | some p => p item
         | none => true)) = true := by
      cases hsd : opts.shouldDebounce with
      | none => simp [hmax]
      | some p => simp [hmax, hp p hsd]
    cases hbk : opts.buildKey item with
    | none => rw [hbk] at hkey; exact absurd hkey (by simp [Debounce.keyTruthy])
    | some s =>
      rw [hbk] at hkey
      simp only [Debounce.enqueue, hbk, hcan, hkey, Bool.not_true, Bool.false_or,
        Bool.or_false]
      simp only [Bool.not_false, Bool.false_eq_true, if_false]
      cases JsMap.get? bufs s <;> rfl

/-- C5 witness: a failing handler on a timer flush is reported, not
raised; and a debounced enqueue resolves. -/
theorem c5_witness :
    Debounce.fireTimer
        ({ debounceMs := 1000, buildKey := fun _ => some "k",
           shouldDebounce := none,
           onFlush := fun _ => Except.error "boom" } :
          Debounce.DebouncerOptions Nat String) [("k", [7])] "k" =
      ([], [("boom", [7])]) ∧
    (Debounce.enqueue
        ({ debounceMs := 1000, buildKey := fun _ => some "k",
           shouldDebounce := none,
           onFlush := fun _ => Except.error "boom" } :
          Debounce.DebouncerOptions Nat String) [] 5).2 = Except.ok () :=
  ⟨(c5_debouncer_amended
      ({ debounceMs := 1000, buildKey := fun _ => some "k",
         shouldDebounce := none,
         onFlush := fun _ => Except.error "boom" } :
        Debounce.DebouncerOptions Nat String) [("k", [7])] "k" [7] "boom" 5).1
      rfl (by simp) rfl,
   (c5_debouncer_amended
      ({ debounceMs := 1000, buildKey := fun _ => some "k",
         shouldDebounce := none,
         onFlush := fun _ => Except.error "boom" } :
        Debounce.DebouncerOptions Nat String) [("k", [7])] "k" [7] "boom" 5).2
      (by decide) (fun p hp => Option.noConfusion hp) rfl⟩

/-- Rounding an integral value is the identity. -/
theorem Backoff.jsRound_intCast (z : Int) : Backoff.jsRound (z : ℚ) = z := by
  unfold Backoff.jsRound
  rw [Int.floor_int_add]
  norm_num

/-- C8 counterexample: with growth factor 1/2 (and zero jitter) the delay
strictly decreases from attempt 1 to attempt 2, refuting the claimed
monotonicity for every policy. -/
theorem c8_counterexample :
    Backoff.computeBackoff ⟨4, 100, 1/2, 0⟩ 2 0 <
      Backoff.computeBackoff ⟨4, 100, 1/2, 0⟩ 1 0 := by
  norm_num [Backoff.computeBackoff, Backoff.jsRound]

/-- C8 (amended): for zero jitter and `initialMs ≤ maxMs`, attempt 1 (and
any attempt at most 1) yields exactly `initialMs`; for zero jitter,
non-negative `initialMs` and growth factor at least 1, the delay is
non-decreasing in the attempt number; and for any jitter and random draw
the delay never exceeds `maxMs`. -/
theorem c8_backoff_amended (p : Backoff.BackoffPolicy) (n m : Int) (r : ℚ) :
    (p.jitter = 0 → p.initialMs ≤ p.maxMs →
      Backoff.computeBackoff p 1 r = p.initialMs) ∧
    (p.jitter = 0 → p.initialMs ≤ p.maxMs → n ≤ 1 →
      Backoff.computeBackoff p n r = p.initialMs) ∧
    (p.jitter = 0 → 0 ≤ p.initialMs → 1 ≤ p.factor → n ≤ m →
      Backoff.computeBackoff p n r ≤ Backoff.computeBackoff p m r) ∧
    Backoff.computeBackoff p n r ≤ p.maxMs := by
  have hbase : ∀ k : Int, k ≤ 1 → p.jitter = 0 → p.initialMs ≤ p.maxMs →
      Backoff.computeBackoff p k r = p.initialMs := by
    intro k hk hj hle
    have hmax : max (k - 1) 0 = 0 := max_eq_right (by omega)
    simp only [Backoff.computeBackoff, hmax, Int.toNat_zero, pow_zero, mul_one,
      hj, mul_zero, zero_mul, add_zero, Backoff.jsRound_intCast]
    exact min_eq_right hle
  refine ⟨hbase 1 le_rfl, fun hj hle hn => hbase n hn hj hle, ?_, ?_⟩
  · intro hj hI hf hnm
    simp only [Backoff.computeBackoff, hj, mul_zero, zero_mul, add_zero]
    refine min_le_min le_rfl ?_
    unfold Backoff.jsRound
    refine Int.floor_le_floor (add_le_add_right ?_ _)
    refine mul_le_mul_of_nonneg_left ?_ (by exact_mod_cast hI)
    refine pow_le_pow_right₀ hf ?_
    exact Int.toNat_le_toNat (max_le_max (by omega) le_rfl)
  · exact min_le_left _ _

/-- C8 witness: the default-style policy (2000 ms initial, cap 30000 ms,
factor 9/5, zero jitter) at concrete attempts. -/
theorem c8_witness :
    Backoff.computeBackoff ⟨2000, 30000, 9/5, 0⟩ 1 (1/3) = 2000 ∧
    Backoff.computeBackoff ⟨2000, 30000, 9/5, 0⟩ 0 (1/3) = 2000 ∧
    Backoff.computeBackoff ⟨2000, 30000, 9/5, 0⟩ 2 (1/3) ≤
      Backoff.computeBackoff ⟨2000, 30000, 9/5, 0⟩ 3 (1/3) ∧
    Backoff.computeBackoff ⟨2000, 30000, 9/5, 0⟩ 7 (1/3) ≤ 30000 :=
  ⟨(c8_backoff_amended ⟨2000, 30000, 9/5, 0⟩ 0 0 (1/3)).1 rfl (by norm_num),
   (c8_backoff_amended ⟨2000, 30000, 9/5, 0⟩ 0 3 (1/3)).2.1 rfl (by norm_num)
     (by norm_num),
   (c8_backoff_amended ⟨2000, 30000, 9/5, 0⟩ 2 3 (1/3)).2.2.1 rfl (by norm_num)
     (by norm_num) (by norm_num),
   (c8_backoff_amended ⟨2000, 30000, 9/5, 0⟩ 7 3 (1/3)).2.2.2⟩

/-- A successful lookup means some entry carries the key. -/
theorem JsMap.any_of_get?_eq_some {α : Type} {c : List (String × α)} {k : String}
    {v : α} (h : JsMap.get? c k = some v) :
    c.any (fun e => e.1 == k) = true := by
  unfold JsMap.get? at h
  cases hf : c.find? (fun e => e.1 == k) with
  | none => rw [hf] at h; cases h
  | some e =>
    have hmem := List.mem_of_find?_eq_some hf
    have hp := List.find?_some hf
    exact List.any_eq_true.mpr ⟨e, hmem, hp⟩

/-- In-place update keeps the key list unchanged. -/
theorem JsMap.keys_set_of_mem {α : Type} {c : List (String × α)} {k : String}
    {v : α} (h : c.any (fun e => e.1 == k) = true) :
    JsMap.keys (JsMap.set c k v) = JsMap.keys c := by
  unfold JsMap.set
  rw [if_pos h]
  unfold JsMap.keys
  rw [List.map_map]
  refine List.map_congr_left fun e he => ?_
  by_cases h1 : (e.1 == k) = true
  · simp only [Function.comp_apply, h1, if_pos]
    exact (beq_iff_eq.mp h1).symm
  · have h2 : e.1 ≠ k := by simpa using h1
    simp [Function.comp_apply, h2]

/-- Fresh-key update appends the key. -/
theorem JsMap.keys_set_of_not_mem {α : Type} {c : List (String × α)} {k : String}
    {v : α} (h : c.any (fun e => e.1 == k) = false) :
    JsMap.keys (JsMap.set c k v) = JsMap.keys c ++ [k] := by
  simp [JsMap.set, h, JsMap.keys]

/-- `Map.set` preserves key distinctness. -/
theorem JsMap.nodupKeys_set {α : Type} {c : List (String × α)} {k : String}
    {v : α} (h : JsMap.NodupKeys c) : JsMap.NodupKeys (JsMap.set c k v) := by
  unfold JsMap.NodupKeys at *
  cases hany : c.any (fun e => e.1 == k) with
  | true => rw [JsMap.keys_set_of_mem hany]; exact h
  | false =>
    rw [JsMap.keys_set_of_not_mem hany]
    have hk : k ∉ JsMap.keys c := by
      intro hmem
      obtain ⟨e, he, hfst⟩ := List.mem_map.mp hmem
      have := List.any_eq_false.mp hany e he
      simp [hfst] at this
    simp [List.nodup_append, h, hk]

/-- In-place update keeps the size unchanged. -/
theorem JsMap.length_set_of_mem {α : Type} {c : List (String × α)} {k : String}
    {v : α} (h : c.any (fun e => e.1 == k) = true) :
    (JsMap.set c k v).length = c.length := by
  simp [JsMap.set, h]

/-- Filtering preserves key distinctness. -/
theorem JsMap.nodupKeys_filter {α : Type} (p : String × α → Bool)
    {c : List (String × α)} (h : JsMap.NodupKeys c) :
    JsMap.NodupKeys (c.filter p) := by
  unfold JsMap.NodupKeys JsMap.keys at *
  exact List.Nodup.sublist ((List.filter_sublist c).map Prod.fst) h

/-- Entries surviving `prune` are within the TTL window. -/
theorem Dedupe.mem_prune_le_ttl {ttlMs : Int} {maxSize : Nat} {now : Int}
    {c : Dedupe.Cache} {e : String × Int}
    (h : e ∈ Dedupe.prune ttlMs maxSize now c) : now - e.2 ≤ ttlMs := by
  simp only [Dedupe.prune] at h
  have hmem : e ∈ c.filter (fun e => !(decide (now - e.2 > ttlMs))) := by
    split at h
    · exact (List.mem_filter.mp h).1
    · exact h
  have := (List.mem_filter.mp hmem).2
  simp only [Bool.not_eq_true', decide_eq_false_iff_not, not_lt] at this
  exact this

/-- C7 counterexample: `check("a", 0)`, `check("b", 8)`, then a duplicate
hit `check("b", 12)` with `ttlMs = 10` — the duplicate path does not
prune, so the stale entry `("a", 0)` (age 12 > 10) survives the call. -/
theorem c7_counterexample :
    (Dedupe.check 10 100 (Dedupe.check 10 100 (Dedupe.check 10 100 []
        (some "a") 0).2 (some "b") 8).2 (some "b") 12).1 = true ∧
    ("a", (0 : Int)) ∈ (Dedupe.check 10 100 (Dedupe.check 10 100
        (Dedupe.check 10 100 [] (some "a") 0).2 (some "b") 8).2
        (some "b") 12).2 ∧
    ((12 : Int) - 0 > 10) := by
  refine ⟨by decide, by decide, by decide⟩

/-- C7 (amended): pruning runs only when the checked key is newly
recorded — the key is absent or its entry has aged at least `ttlMs` — and
after such a call no entry older than `ttlMs` relative to the call's time
remains; a duplicate hit merely refreshes the matched timestamp without
pruning. -/
theorem c7_insert_path_prunes (ttlMs : Int) (maxSize : Nat) (c : Dedupe.Cache)
    (k : String) (now : Int) (hk : k ≠ "")
    (hstale : ∀ t, JsMap.get? c k = some t → ttlMs ≤ now - t) :
    ∀ e ∈ (Dedupe.check ttlMs maxSize c (some k) now).2, now - e.2 ≤ ttlMs := by
  intro e he
  have hkf : (k = "") = False := eq_false hk
  cases hg : JsMap.get? c k with
  | none =>
    simp only [Dedupe.check, hkf, if_false, hg] at he
    exact Dedupe.mem_prune_le_ttl he
  | some t =>
    have hnl : ¬(now - t < ttlMs) := by have := hstale t hg; omega
    simp only [Dedupe.check, hkf, if_false, hg, if_neg hnl] at he
    exact Dedupe.mem_prune_le_ttl he

/-- C7 witness: inserting a fresh key into an empty cache leaves only
fresh entries. -/
theorem c7_witness :
    (("k", (0 : Int)) ∈ (Dedupe.check 10 5 [] (some "k") 0).2) ∧
    ((0 : Int) - ("k", (0 : Int)).2 ≤ 10) :=
  ⟨by decide,
   c7_insert_path_prunes 10 5 [] "k" 0 (by decide)
     (fun t h => Option.noConfusion h) ("k", 0) (by decide)⟩

/-- C3 counterexample: with `maxSize = 0` the just-recorded key is evicted
by the size cap inside the same `check`, so a second `check` of the same
key one tick later (well within `ttlMs = 10`) is not reported as a
duplicate — refuting the claim for arbitrary caches. -/
theorem c3_counterexample :
    (Dedupe.check 10 0 [] (some "k") 0).1 = false ∧
    (1 : Int) - 0 < 10 ∧
    (Dedupe.check 10 0 (Dedupe.check 10 0 [] (some "k") 0).2 (some "k") 1).1 =
      false := by
  have hsingle : List.mergeSort [(("k" : String), (0 : Int))]
      (fun a b => a.2 ≤ b.2) = [("k", 0)] :=
    List.perm_singleton.mp (List.mergeSort_perm _ _)
  have hstate : (Dedupe.check 10 0 [] (some "k") 0).2 = [] := by
    simp [Dedupe.check, Dedupe.prune, JsMap.get?, JsMap.set, hsingle]
  refine ⟨by decide, by decide, ?_⟩
  rw [hstate]
  decide

/-- C3 (amended): provided `maxSize ≥ 1` and no intervening checks of
other keys occur (which could evict the key through the size cap), the
first `check(k)` returns false, a re-check strictly within `ttlMs` of the
previous check returns true, and a re-check once at least `ttlMs` has
elapsed returns false again. -/
theorem c3_dedupe_window (ttlMs : Int) (maxSize : Nat) (k : String) (t0 t1 : Int)
    (hk : k ≠ "") (hms : 1 ≤ maxSize) (httl : 0 ≤ ttlMs) :
    (Dedupe.check ttlMs maxSize [] (some k) t0).1 = false ∧
    (t1 - t0 < ttlMs →
      (Dedupe.check ttlMs maxSize (Dedupe.check ttlMs maxSize [] (some k) t0).2
        (some k) t1).1 = true) ∧
    (ttlMs ≤ t1 - t0 →
      (Dedupe.check ttlMs maxSize (Dedupe.check ttlMs maxSize [] (some k) t0).2
        (some k) t1).1 = false) := by
  have hkf : (k = "") = False := eq_false hk
  have hget : JsMap.get? ([] : Dedupe.Cache) k = none := rfl
  have hfresh : ¬(t0 - t0 > ttlMs) := by omega
  have hcap : ¬(1 > maxSize) := by omega
  have hset : JsMap.set ([] : Dedupe.Cache) k t0 = [(k, t0)] := by
    simp [JsMap.set]
  have hfilter : List.filter (fun e => !(decide (t0 - e.2 > ttlMs)))
      [(k, t0)] = [(k, t0)] := by
    simp [hfresh, httl]
  have hprune : Dedupe.prune ttlMs maxSize t0 [(k, t0)] = [(k, t0)] := by
    simp only [Dedupe.prune]
    rw [hfilter]
    simp [hcap]
  have hstate : (Dedupe.check ttlMs maxSize [] (some k) t0).2 = [(k, t0)] := by
    simp only [Dedupe.check, hkf, if_false, hget, hset, hprune]
  have hget1 : JsMap.get? [(k, t0)] k = some t0 := by
    simp [JsMap.get?, List.find?]
  refine ⟨?_, ?_, ?_⟩
  · simp only [Dedupe.check, hkf, if_false, hget]
  · intro hlt
    rw [hstate]
    simp only [Dedupe.check, hkf, if_false, hget1, if_pos hlt]
  · intro hge
    have hnl : ¬(t1 - t0 < ttlMs) := by omega
    rw [hstate]
    simp only [Dedupe.check, hkf, if_false, hget1, if_neg hnl]

/-- C3 witness: the three clauses at `ttlMs = 10`, `maxSize = 5`,
re-checks at offsets 3 (within) and 15 (elapsed). -/
theorem c3_witness :
    (Dedupe.check 10 5 [] (some "k") 0).1 = false ∧
    (Dedupe.check 10 5 (Dedupe.check 10 5 [] (some "k") 0).2
      (some "k") 3).1 = true ∧
    (Dedupe.check 10 5 (Dedupe.check 10 5 [] (some "k") 0).2
      (some "k") 15).1 = false :=
  ⟨(c3_dedupe_window 10 5 "k" 0 3 (by decide) (by decide) (by decide)).1,
   (c3_dedupe_window 10 5 "k" 0 3 (by decide) (by decide) (by decide)).2.1
     (by decide),
   (c3_dedupe_window 10 5 "k" 0 15 (by decide) (by decide) (by decide)).2.2
     (by decide)⟩

/-- A predicate splits a list's length between its filter and co-filter. -/
theorem lengthFilterSplit {α : Type} (p : α → Bool) (l : List α) :
    (l.filter p).length + (l.filter (fun x => !(p x))).length = l.length := by
  induction l with
  | nil => rfl
  | cons a t ih => cases hpa : p a <;> simp [List.filter_cons, hpa] <;> omega

/-- Filtering a nodup list on membership in a nodup sub-collection keeps
exactly that collection's length. -/
theorem lengthFilterMem {l D : List String} (hl : l.Nodup) (hD : D.Nodup)
    (hsub : ∀ d ∈ D, d ∈ l) :
    (l.filter (fun s => D.contains s)).length = D.length := by
  have hnf : (l.filter (fun s => D.contains s)).Nodup := hl.filter _
  have hset : (l.filter (fun s => D.contains s)).toFinset = D.toFinset := by
    ext x
    simp only [List.mem_toFinset, List.mem_filter, List.elem_iff]
    exact ⟨fun hx => hx.2, fun hx => ⟨hsub x hx, hx⟩⟩
  have h1 := List.toFinset_card_of_nodup hnf
  have h2 := List.toFinset_card_of_nodup hD
  rw [← h1, hset, h2]

/-- Key list of a by-key filter. -/
theorem keysFilterByKey {α : Type} (p : String → Bool) (c : List (String × α)) :
    JsMap.keys (c.filter (fun e => p e.1)) = (JsMap.keys c).filter p := by
  unfold JsMap.keys
  induction c with
  | nil => rfl
  | cons a t ih => cases hpa : p a.1 <;> simp [List.filter_cons, hpa, ih]

/-- `prune` leaves at most `maxSize` entries. -/
theorem Dedupe.length_prune_le {ttlMs : Int} {maxSize : Nat} {now : Int}
    {c : Dedupe.Cache} (h : JsMap.NodupKeys c) :
    (Dedupe.prune ttlMs maxSize now c).length ≤ maxSize := by
  have hn1 : JsMap.NodupKeys (c.filter (fun e => !(decide (now - e.2 > ttlMs)))) :=
    JsMap.nodupKeys_filter _ h
  simp only [Dedupe.prune]
  set c1 := c.filter (fun e => !(decide (now - e.2 > ttlMs))) with hc1
  by_cases hlen : c1.length > maxSize
  · rw [if_pos hlen]
    set sorted := c1.mergeSort (fun a b => a.2 ≤ b.2) with hsorted
    set D := (sorted.take (c1.length - maxSize)).map Prod.fst with hD
    have hperm : sorted.Perm c1 := List.mergeSort_perm c1 _
    have hkperm : (sorted.map Prod.fst).Perm (c1.map Prod.fst) := hperm.map _
    have hknodup : (sorted.map Prod.fst).Nodup := hkperm.nodup_iff.mpr hn1
    have hDeq : D = (sorted.map Prod.fst).take (c1.length - maxSize) := by
      rw [hD, List.map_take]
    have hDnodup : D.Nodup := by
      rw [hDeq]
      exact List.Nodup.sublist (List.take_sublist _ _) hknodup
    have hDsub : ∀ d ∈ D, d ∈ c1.map Prod.fst := by
      intro d hd
      rw [hDeq] at hd
      exact hkperm.subset (List.mem_of_mem_take hd)
    have hsplit : (c1.filter (fun e => D.contains e.1)).length +
        (c1.filter (fun e => !(D.contains e.1))).length = c1.length :=
      lengthFilterSplit _ c1
    have hposlen : (c1.filter (fun e => D.contains e.1)).length = D.length := by
      have hlen1 : (c1.filter (fun e => D.contains e.1)).length =
          (JsMap.keys (c1.filter (fun e => D.contains e.1))).length := by
        simp [JsMap.keys]
      rw [hlen1, keysFilterByKey (fun s => D.contains s) c1]
      exact lengthFilterMem hn1 hDnodup hDsub
    have hDlen : D.length = c1.length - maxSize := by
      rw [hDeq, List.length_take]
      have hslen : (sorted.map Prod.fst).length = c1.length := by
        rw [List.length_map]
        exact hperm.length_eq
      omega
    omega
  · rw [if_neg hlen]
    omega

/-- `prune` preserves key distinctness. -/
theorem Dedupe.nodupKeys_prune {ttlMs : Int} {maxSize : Nat} {now : Int}
    {c : Dedupe.Cache} (h : JsMap.NodupKeys c) :
    JsMap.NodupKeys (Dedupe.prune ttlMs maxSize now c) := by
  simp only [Dedupe.prune]
  split
  · exact JsMap.nodupKeys_filter _ (JsMap.nodupKeys_filter _ h)
  · exact JsMap.nodupKeys_filter _ h

/-- A single `check` preserves the cache invariant: distinct keys and size
within the cap. -/
theorem Dedupe.check_preserves (ttlMs : Int) (maxSize : Nat) (c : Dedupe.Cache)
    (key : Option String) (now : Int) (h1 : JsMap.NodupKeys c)
    (h2 : c.length ≤ maxSize) :
    JsMap.NodupKeys (Dedupe.check ttlMs maxSize c key now).2 ∧
      (Dedupe.check ttlMs maxSize c key now).2.length ≤ maxSize := by
  cases key with
  | none => exact ⟨h1, h2⟩
  | some k =>
    by_cases hk : k = ""
    · simp only [Dedupe.check, if_pos hk]
      exact ⟨h1, h2⟩
    · have hkf : (k = "") = False := eq_false hk
      cases hg : JsMap.get? c k with
      | some t =>
        by_cases hlt : now - t < ttlMs
        · have hany := JsMap.any_of_get?_eq_some hg
          constructor
          · simp only [Dedupe.check, hkf, if_false, hg, if_pos hlt]
            exact JsMap.nodupKeys_set h1
          · simp only [Dedupe.check, hkf, if_false, hg, if_pos hlt]
            rw [JsMap.length_set_of_mem hany]
            exact h2
        · simp only [Dedupe.check, hkf, if_false, hg, if_neg hlt]
          exact ⟨Dedupe.nodupKeys_prune (JsMap.nodupKeys_set h1),
            Dedupe.length_prune_le (JsMap.nodupKeys_set h1)⟩
      | none =>
        simp only [Dedupe.check, hkf, if_false, hg]
        exact ⟨Dedupe.nodupKeys_prune (JsMap.nodupKeys_set h1),
          Dedupe.length_prune_le (JsMap.nodupKeys_set h1)⟩

/-- C6: after any sequence of `check` calls against a fresh cache — in
particular any sequence of distinct keys — the number of stored entries
never exceeds `maxSize`. -/
theorem c6_dedupe_size_bounded (ttlMs : Int) (maxSize : Nat)
    (calls : List (Option String × Int)) :
    Dedupe.size (Dedupe.runChecks ttlMs maxSize calls []) ≤ maxSize := by
  suffices h : ∀ c : Dedupe.Cache, JsMap.NodupKeys c → c.length ≤ maxSize →
      JsMap.NodupKeys (Dedupe.runChecks ttlMs maxSize calls c) ∧
        (Dedupe.runChecks ttlMs maxSize calls c).length ≤ maxSize by
    exact (h [] (by simp [JsMap.NodupKeys, JsMap.keys]) (by simp)).2
  induction calls with
  | nil => exact fun c hc1 hc2 => ⟨hc1, hc2⟩
  | cons call rest ih =>
    intro c hc1 hc2
    have hstep := Dedupe.check_preserves ttlMs maxSize c call.1 call.2 hc1 hc2
    have hunfold : Dedupe.runChecks ttlMs maxSize (call :: rest) c =
        Dedupe.runChecks ttlMs maxSize rest
          (Dedupe.check ttlMs maxSize c call.1 call.2).2 := by
      simp [Dedupe.runChecks]
    rw [hunfold]
    exact ih _ hstep.1 hstep.2
